import Mathlib

/-!
# Verification of `toolchains_path.py` (Android NDK toolchain locator)

A shallow embedding of `src/xmrig/lib-builder/script/toolchains_path.py`.

Modelling conventions:
* Paths are strings; `pathJoin` models `os.path.join` for the uses in this
  program, where every second argument is a fixed relative component
  (POSIX separator `/`).
* The filesystem is a map from path strings to an optional `FileKind`
  (`none` = absent), covering `os.path.exists` and `os.path.isdir`.
* The persisted cache file (`ta_toolchain_cache.json` in the temp dir) is
  modelled separately from the path map by `FS.cacheFile`:
  `none` = the file does not exist, `some none` = it exists but is not
  valid JSON (`json.load` raises `JSONDecodeError`), `some (some v)` = it
  parses to the JSON value `v`.  `FS.cacheWritable` models whether
  `open(cache_file, 'w')` succeeds (it raises `OSError` otherwise).
* JSON documents are the inductive `JVal`; numbers are modelled as `Int`
  (the program only compares whole-second thresholds).
* `Env` captures the process-wide inputs read by the script:
  `cacheEnabled` = `TA_ENABLE_BUILD_CACHE`, `now` = `time.time()`
  (taken constant within one invocation), `system` =
  `platform.system().lower()`, `machine` = `platform.machine().lower()`,
  `sysPlatform` = `sys.platform`.
* Fallible Python code is translated into `Except PyExc`.  The script's
  `except` clause in `cache_toolchain_path` names `json.JSONEncodeError`,
  an attribute that does not exist in the `json` module; in CPython,
  evaluating that clause while handling any exception raised in the `try`
  block therefore raises an (uncaught) `AttributeError`.  The translation
  reflects this: every exception raised inside that `try` block surfaces
  as `PyExc.attributeError`.
* An uncaught exception in `main` makes CPython print a traceback to
  stderr and exit with status 1, printing nothing to stdout; `mainResult`
  reflects this on the `.error` branch.
-/

namespace ToolchainScript

/-- JSON values, as produced by `json.load`.  Numbers are whole seconds. -/
inductive JVal where
  | jnull : JVal
  | jbool : Bool → JVal
  | jnum : Int → JVal
  | jstr : String → JVal
  | jarr : List JVal → JVal
  | jobj : List (String × JVal) → JVal

/-- What a filesystem path resolves to (`none` in `FS.kind` means absent). -/
inductive FileKind where
  | dir : FileKind
  | file : FileKind
deriving DecidableEq

/-- The Python exceptions that can escape the translated functions. -/
inductive PyExc where
  | typeError : PyExc
  | attributeError : PyExc
deriving DecidableEq

instance {ε α : Type} [DecidableEq ε] [DecidableEq α] :
    DecidableEq (Except ε α) := fun a b =>
  match a, b with
  | Except.error x, Except.error y =>
    if h : x = y then Decidable.isTrue (congrArg Except.error h)
    else Decidable.isFalse (fun he => h (Except.error.inj he))
  | Except.ok x, Except.ok y =>
    if h : x = y then Decidable.isTrue (congrArg Except.ok h)
    else Decidable.isFalse (fun he => h (Except.ok.inj he))
  | Except.error _, Except.ok _ =>
    Decidable.isFalse (fun he => Except.noConfusion he)
  | Except.ok _, Except.error _ =>
    Decidable.isFalse (fun he => Except.noConfusion he)

/-- Process-wide inputs read by the script (environment, clock, platform). -/
structure Env where
  cacheEnabled : Bool
  now : Int
  sysPlatform : String
  system : String
  machine : String

/-- The filesystem as seen by one invocation of the script. -/
structure FS where
  kind : String → Option FileKind
  cacheFile : Option (Option JVal)
  cacheWritable : Bool
  fileLines : String → Option (List String)

/-- Models `os.path.exists` on the path map. -/
def FS.existsP (fs : FS) (p : String) : Bool :=
  (fs.kind p).isSome

/-- Models `os.path.isdir` on the path map. -/
def FS.isDirP (fs : FS) (p : String) : Bool :=
  match fs.kind p with
  | some FileKind.dir => true
  | _ => false

/-- Models `os.path.join a b` for the relative second components used here. -/
def pathJoin (a b : String) : String := a ++ "/" ++ b

/-- Models Python `s.startswith(p)` (string prefix test). -/
def strStartsWith (s p : String) : Bool := p.toList.isPrefixOf s.toList

/-- Python's `needle in hay` substring test (used when the parsed cache is
a JSON string).  `needle` is never empty in this program (cache keys
contain a colon). -/
def strContains (hay needle : String) : Bool :=
  (hay.splitOn needle).length ≥ 2

/-- Lookup in a JSON object.  Objects decoded by `json.load` have unique
keys, for which first-match lookup agrees with Python dict lookup. -/
def jLookup : List (String × JVal) → String → Option JVal
  | [], _ => none
  | p :: rest, key => if p.1 = key then some p.2 else jLookup rest key

/-- The numeric value of a JSON value, if Python arithmetic accepts it
(`json` booleans are Python ints `0`/`1`). -/
def jNumVal : JVal → Option Int
  | JVal.jnum n => some n
  | JVal.jbool b => some (if b then 1 else 0)
  | _ => none

/-- Python dict insertion `d[k] = v` on an association list: an existing
key keeps its position and gets the new value, a new key is appended. -/
def dictInsert (l : List (String × JVal)) (k : String) (v : JVal) :
    List (String × JVal) :=
  if l.any (fun p => p.1 == k) then
    l.map (fun p => if p.1 == k then (k, v) else p)
  else l ++ [(k, v)]

/-- Models `dict(pairs)`: fold Python dict insertion over a pair list. -/
def listToDict (l : List (String × JVal)) : List (String × JVal) :=
  l.foldl (fun acc p => dictInsert acc p.1 p.2) []

/-- The sort key `x[1].get('timestamp', 0)` of a cache entry, coerced to
an integer (entries written by this program always store `jnum`). -/
def tsNum : JVal → Int
  | JVal.jobj ekvs =>
    match (jLookup ekvs "timestamp").getD (JVal.jnum 0) with
    | JVal.jnum n => n
    | JVal.jbool b => if b then 1 else 0
    | _ => 0
  | _ => 0

/-- The sort key of a cache entry when every stored timestamp is a JSON
string (Python then sorts the strings). -/
def tsStr : JVal → String
  | JVal.jobj ekvs =>
    match (jLookup ekvs "timestamp").getD (JVal.jnum 0) with
    | JVal.jstr s => s
    | _ => ""
  | _ => ""

/-- Comparison of cache entries by numeric timestamp. -/
def tsNumLe (a b : String × JVal) : Prop := tsNum a.2 ≤ tsNum b.2

instance : DecidableRel tsNumLe :=
  fun a b => inferInstanceAs (Decidable (tsNum a.2 ≤ tsNum b.2))

instance : IsTotal (String × JVal) tsNumLe :=
  ⟨fun a b => le_total (tsNum a.2) (tsNum b.2)⟩

instance : IsTrans (String × JVal) tsNumLe :=
  ⟨fun _ _ _ h1 h2 => le_trans h1 h2⟩

/-- Comparison of cache entries by string timestamp. -/
def tsStrLe (a b : String × JVal) : Prop := tsStr a.2 ≤ tsStr b.2

instance : DecidableRel tsStrLe :=
  fun a b => inferInstanceAs (Decidable (tsStr a.2 ≤ tsStr b.2))

/-- How one entry's `timestamp` field behaves as a Python sort key:
number-like (ints, floats, bools, or the default `0` for a missing
field), a string, or something unorderable. -/
inductive TsKind where
  | numK : TsKind
  | strK : TsKind
  | badK : TsKind
deriving DecidableEq

/-- Classify one cache value as a sort-key source.  A value that is not a
dict has no `.get`, so `sorted`'s key function raises `AttributeError`
(which the buggy `except` clause turns into an uncaught one). -/
def keyClassOf : JVal → Except PyExc TsKind
  | JVal.jobj ekvs =>
    match (jLookup ekvs "timestamp").getD (JVal.jnum 0) with
    | JVal.jnum _ => Except.ok TsKind.numK
    | JVal.jbool _ => Except.ok TsKind.numK
    | JVal.jstr _ => Except.ok TsKind.strK
    | _ => Except.ok TsKind.badK
  | _ => Except.error PyExc.attributeError

/-- Collect the sort-key kinds of all entries, failing on the first value
without `.get` (Python computes all keys before comparing). -/
def collectKinds : List (String × JVal) → Except PyExc (List TsKind)
  | [] => Except.ok []
  | p :: ps =>
    match keyClassOf p.2 with
    | Except.error e => Except.error e
    | Except.ok c =>
      match collectKinds ps with
      | Except.error e => Except.error e
      | Except.ok cs => Except.ok (c :: cs)

/-- Which homogeneous comparison `sorted` ends up performing. -/
inductive SortMode where
  | byNum : SortMode
  | byStr : SortMode

/-- Decide how `sorted(entries, key=...)` behaves.  Heterogeneous or
unorderable keys make a CPython comparison raise `TypeError`; this is
only invoked on lists of more than 10 entries, where adjacent-element
comparisons always happen. -/
def classifyKeys (l : List (String × JVal)) : Except PyExc SortMode :=
  match collectKinds l with
  | Except.error e => Except.error e
  | Except.ok cs =>
    if cs.all (fun c => c == TsKind.numK) then Except.ok SortMode.byNum
    else if cs.all (fun c => c == TsKind.strK) then Except.ok SortMode.byStr
    else Except.error PyExc.typeError

/-- Models `dict(sorted_entries[-10:])`: keep the 10 entries with the largest
timestamps. -/
def cutLast10 (s : List (String × JVal)) : List (String × JVal) :=
  listToDict (s.drop (s.length - 10))

/-- The eviction step of `cache_toolchain_path`: if the store has grown
beyond 10 entries, sort by ascending timestamp and keep the last 10. -/
def trimStore (kvs1 : List (String × JVal)) :
    Except PyExc (List (String × JVal)) :=
  if kvs1.length > 10 then
    match classifyKeys kvs1 with
    | Except.error e => Except.error e
    | Except.ok SortMode.byNum =>
      Except.ok (cutLast10 (List.insertionSort tsNumLe kvs1))
    | Except.ok SortMode.byStr =>
      Except.ok (cutLast10 (List.insertionSort tsStrLe kvs1))
  else Except.ok kvs1

/-- Translation of `detect_ndk_version`: read `Pkg.Revision` from `source.properties`;
any failure (missing file, unreadable file, no `=` on the matching line)
is swallowed and yields `"unknown"`. -/
def detect_ndk_version (fs : FS) (ndk_dir : String) : String :=
  match fs.fileLines (pathJoin ndk_dir "source.properties") with
  | none => "unknown"
  | some ls =>
    match ls.find? (fun l => strStartsWith l "Pkg.Revision") with
    | none => "unknown"
    | some line =>
      match line.splitOn "=" with
      | _ :: v :: _ => v.trim
      | _ => "unknown"

/-- The metadata object stored for one cache key by
`cache_toolchain_path`. -/
def mkEntry (env : Env) (fs : FS) (ndk_dir host_tag toolchain_path : String) :
    JVal :=
  JVal.jobj [("path", JVal.jstr toolchain_path),
             ("timestamp", JVal.jnum env.now),
             ("ndk_version", JVal.jstr (detect_ndk_version fs ndk_dir)),
             ("host_tag", JVal.jstr host_tag)]

/-- The insert-evict-write tail of `cache_toolchain_path`, run on the
parsed (or empty) store `kvs`.  A failing `open(..., 'w')` raises
`OSError`, which the buggy `except` clause turns into an uncaught
`AttributeError`. -/
def cacheStorePut (env : Env) (fs : FS) (ndk_dir host_tag toolchain_path : String)
    (kvs : List (String × JVal)) : Except PyExc FS :=
  let key := ndk_dir ++ ":" ++ host_tag
  let kvs1 := dictInsert kvs key (mkEntry env fs ndk_dir host_tag toolchain_path)
  match trimStore kvs1 with
  | Except.error e => Except.error e
  | Except.ok kvs2 =>
    if fs.cacheWritable then
      Except.ok { fs with cacheFile := some (some (JVal.jobj kvs2)) }
    else Except.error PyExc.attributeError

/-- Translation of `cache_toolchain_path`: persist a resolved path.  Any exception in
the `try` block (malformed store, non-dict store, unsortable entries,
write error) escapes as `AttributeError` because the `except` clause
names the nonexistent `json.JSONEncodeError`. -/
def cache_toolchain_path (env : Env) (fs : FS)
    (ndk_dir host_tag toolchain_path : String) : Except PyExc FS :=
  if env.cacheEnabled then
    match fs.cacheFile with
    | none => cacheStorePut env fs ndk_dir host_tag toolchain_path []
    | some none => Except.error PyExc.attributeError
    | some (some (JVal.jobj kvs)) =>
      cacheStorePut env fs ndk_dir host_tag toolchain_path kvs
    | some (some _) => Except.error PyExc.attributeError
  else Except.ok fs

/-- Translation of `get_cached_toolchain_path`: look up the key in the persisted store.
The `except` clause catches `JSONDecodeError`, `KeyError` and `OSError`
only, so a store whose JSON shape is unexpected can raise `TypeError`
(membership test on a non-container, arithmetic on a non-number,
`os.path.exists(None)`) or `AttributeError` (`.get` on a non-dict entry),
none of which are caught.  The function performs no writes, so the
returned filesystem is always the input one. -/
def get_cached_toolchain_path (env : Env) (fs : FS) (ndk_dir host_tag : String) :
    Except PyExc (Option String × FS) :=
  if env.cacheEnabled then
    match fs.cacheFile with
    | none => Except.ok (none, fs)
    | some none => Except.ok (none, fs)
    | some (some data) =>
      let key := ndk_dir ++ ":" ++ host_tag
      match data with
      | JVal.jobj kvs =>
        match jLookup kvs key with
        | none => Except.ok (none, fs)
        | some (JVal.jobj ekvs) =>
          let pathV := jLookup ekvs "path"
          let tsV := (jLookup ekvs "timestamp").getD (JVal.jnum 0)
          match jNumVal tsV with
          | none => Except.error PyExc.typeError
          | some t =>
            if env.now - t < 86400 then
              match pathV with
              | some (JVal.jstr s) =>
                if fs.existsP s then Except.ok (some s, fs)
                else Except.ok (none, fs)
              | some (JVal.jnum _) => Except.ok (none, fs)
              | some (JVal.jbool _) => Except.ok (none, fs)
              | _ => Except.error PyExc.typeError
            else Except.ok (none, fs)
        | some _ => Except.error PyExc.attributeError
      | JVal.jarr xs =>
        if xs.any (fun v => match v with | JVal.jstr s => s == key | _ => false)
        then Except.error PyExc.typeError
        else Except.ok (none, fs)
      | JVal.jstr s =>
        if strContains s key then Except.error PyExc.typeError
        else Except.ok (none, fs)
      | _ => Except.error PyExc.typeError
  else Except.ok (none, fs)

/-- Translation of `get_host_tag`: map (OS, architecture) to an NDK host tag, with the
legacy Windows fallback when `<ndk_dir>/prebuilt/windows-x86_64` is
absent (and `ndk_dir` is a truthy argument). -/
def get_host_tag (env : Env) (fs : FS) (ndk_dir : Option String) :
    Option String :=
  if env.system = "linux" then
    if env.machine = "x86_64" ∨ env.machine = "amd64" then some "linux-x86_64"
    else if env.machine = "aarch64" ∨ env.machine = "arm64" then
      some "linux-aarch64"
    else none
  else if env.system = "darwin" then
    if env.machine = "x86_64" ∨ env.machine = "amd64" then some "darwin-x86_64"
    else if env.machine = "arm64" ∨ env.machine = "aarch64" then
      some "darwin-arm64"
    else none
  else if env.system = "windows" ∨ env.system = "win32" ∨ env.system = "cygwin"
  then
    match ndk_dir with
    | some d =>
      if d ≠ "" ∧ ¬ (fs.existsP (pathJoin (pathJoin d "prebuilt") "windows-x86_64") = true)
      then some "windows"
      else some "windows-x86_64"
    | none => some "windows-x86_64"
  else none

/-- The three relative paths required inside an NDK root. -/
def requiredNdkPaths : List String :=
  ["toolchains/llvm/prebuilt", "build/cmake", "sources"]

/-- Translation of `validate_ndk_directory`: the root must be a directory and the three
required relative paths must exist (`os.path.exists`, any file kind). -/
def validate_ndk_directory (fs : FS) (ndk_dir : String) : Bool :=
  fs.isDirP ndk_dir &&
    requiredNdkPaths.all (fun p => fs.existsP (pathJoin ndk_dir p))

/-- The candidate toolchain directory
`<ndk_dir>/toolchains/llvm/prebuilt/<host_tag>`. -/
def toolchainPathOf (ndk_dir host_tag : String) : String :=
  pathJoin (pathJoin (pathJoin (pathJoin ndk_dir "toolchains") "llvm")
    "prebuilt") host_tag

/-- The compiler executables `find_toolchain_path` requires: the `.exe`
suffix is chosen by `sys.platform.startswith('win')`, not by the host
tag. -/
def requiredTools (sysPlatform : String) : List String :=
  if strStartsWith sysPlatform "win" then ["bin/clang.exe", "bin/clang++.exe"]
  else ["bin/clang", "bin/clang++"]

/-- The cache-miss branch of `find_toolchain_path`: check the candidate
directory and its required executables, then persist on success. -/
def findFresh (env : Env) (fs : FS) (ndk_dir host_tag : String) :
    Except PyExc (Option String × FS) :=
  let tp := toolchainPathOf ndk_dir host_tag
  if fs.existsP tp then
    if (requiredTools env.sysPlatform).all (fun t => fs.existsP (pathJoin tp t))
    then
      match cache_toolchain_path env fs ndk_dir host_tag tp with
      | Except.error e => Except.error e
      | Except.ok fs1 => Except.ok (some tp, fs1)
    else Except.ok (none, fs)
  else Except.ok (none, fs)

/-- Translation of `find_toolchain_path`: return a valid cached path if one exists
(Python truthiness: an empty cached string would fall through), else
resolve freshly. -/
def find_toolchain_path (env : Env) (fs : FS) (ndk_dir host_tag : String) :
    Except PyExc (Option String × FS) :=
  match get_cached_toolchain_path env fs ndk_dir host_tag with
  | Except.error e => Except.error e
  | Except.ok (r, fs0) =>
    match r with
    | some c =>
      if c ≠ "" then Except.ok (some c, fs0)
      else findFresh env fs0 ndk_dir host_tag
    | none => findFresh env fs0 ndk_dir host_tag

/-- Translation of `get_toolchain_path`: validate the NDK root, resolve the host tag,
then locate the toolchain (`if not ...` gates use Python truthiness). -/
def get_toolchain_path (env : Env) (fs : FS) (ndk_dir : String) :
    Except PyExc (Option String × FS) :=
  if validate_ndk_directory fs ndk_dir then
    match get_host_tag env fs (some ndk_dir) with
    | none => Except.ok (none, fs)
    | some h =>
      if h ≠ "" then
        match find_toolchain_path env fs ndk_dir h with
        | Except.error e => Except.error e
        | Except.ok (some p, fs1) =>
          if p ≠ "" then Except.ok (some p, fs1) else Except.ok (none, fs1)
        | Except.ok (none, fs1) => Except.ok (none, fs1)
      else Except.ok (none, fs)
  else Except.ok (none, fs)

/-- The observable outcome of `main` for a given `--ndk` argument:
(lines printed to stdout, exit status).  A successful resolution prints
the path and exits 0; a `None` result logs to stderr and exits 1; an
uncaught exception makes CPython print a traceback to stderr and exit 1
with nothing on stdout. -/
def mainResult (env : Env) (fs : FS) (ndk_dir : String) : List String × Nat :=
  match get_toolchain_path env fs ndk_dir with
  | Except.ok (some p, _) => if p ≠ "" then ([p], 0) else ([], 1)
  | Except.ok (none, _) => ([], 1)
  | Except.error _ => ([], 1)

/-! ## Concrete fixtures used by the closed theorems and witnesses -/

/-- A Linux environment with caching enabled, clock at 1000s. -/
def envLinux : Env :=
  { cacheEnabled := true, now := 1000, sysPlatform := "linux",
    system := "linux", machine := "x86_64" }

/-- A complete NDK installation at `/opt/ndk` with a valid
`linux-x86_64` toolchain. -/
def ndkKind : String → Option FileKind := fun p =>
  if p = "/opt/ndk" then some FileKind.dir
  else if p = "/opt/ndk/toolchains/llvm/prebuilt" then some FileKind.dir
  else if p = "/opt/ndk/build/cmake" then some FileKind.dir
  else if p = "/opt/ndk/sources" then some FileKind.dir
  else if p = "/opt/ndk/toolchains/llvm/prebuilt/linux-x86_64" then
    some FileKind.dir
  else if p = "/opt/ndk/toolchains/llvm/prebuilt/linux-x86_64/bin/clang" then
    some FileKind.file
  else if p = "/opt/ndk/toolchains/llvm/prebuilt/linux-x86_64/bin/clang++" then
    some FileKind.file
  else none

/-- The valid NDK filesystem with no cache file and an unwritable cache
location (`open(cache_file, 'w')` raises `OSError`). -/
def fsUnwritable : FS :=
  { kind := ndkKind, cacheFile := none, cacheWritable := false,
    fileLines := fun _ => none }

/-- The same filesystem with a writable cache location. -/
def fsWritable : FS :=
  { kind := ndkKind, cacheFile := none, cacheWritable := true,
    fileLines := fun _ => none }

/-! Fixtures for the cache round-trip counterexample (claim C2): the
store holds an entry created at time 0; the first call happens at
86000s (a cache hit), the second 500s later, past the entry's 24h
lifetime.  The toolchain directory exists but its executables do not. -/

/-- Clock at 86000s, just inside the cached entry's 24h lifetime. -/
def envFirstCall : Env :=
  { cacheEnabled := true, now := 86000, sysPlatform := "linux",
    system := "linux", machine := "x86_64" }

/-- Clock at 86500s: 500s after `envFirstCall`, but 86500s after the
cache entry was created. -/
def envSecondCall : Env :=
  { cacheEnabled := true, now := 86500, sysPlatform := "linux",
    system := "linux", machine := "x86_64" }

/-- The toolchain directory under `/n`, with no executables inside, and
a persisted cache entry for it stamped at time 0. -/
def fsStaleHit : FS :=
  { kind := fun p =>
      if p = "/n/toolchains/llvm/prebuilt/linux-x86_64" then some FileKind.dir
      else none,
    cacheFile := some (some (JVal.jobj
      [("/n:linux-x86_64", JVal.jobj
        [("path", JVal.jstr "/n/toolchains/llvm/prebuilt/linux-x86_64"),
         ("timestamp", JVal.jnum 0)])])),
    cacheWritable := true,
    fileLines := fun _ => none }

/-! Fixtures for the executable-suffix counterexample (claim C5): a
cygwin interpreter (`sys.platform = 'cygwin'`, `platform.system()`
lowercased `'cygwin'`, a member of the script's Windows family). -/

/-- A cygwin environment with caching disabled. -/
def envCygwin : Env :=
  { cacheEnabled := false, now := 0, sysPlatform := "cygwin",
    system := "cygwin", machine := "x86_64" }

/-- An NDK at `/n` whose `windows-x86_64` toolchain contains `bin/clang`
and `bin/clang++` without the `.exe` suffix (no `.exe` files at all). -/
def fsCygwin : FS :=
  { kind := fun p =>
      if p = "/n/prebuilt/windows-x86_64" then some FileKind.dir
      else if p = "/n/toolchains/llvm/prebuilt/windows-x86_64" then
        some FileKind.dir
      else if p = "/n/toolchains/llvm/prebuilt/windows-x86_64/bin/clang" then
        some FileKind.file
      else if p = "/n/toolchains/llvm/prebuilt/windows-x86_64/bin/clang++" then
        some FileKind.file
      else none,
    cacheFile := none, cacheWritable := true, fileLines := fun _ => none }

/-! Fixtures for the malformed-store theorems (claim C6). -/

/-- A persisted cache file whose JSON document is the number `42`. -/
def fsStoreNumber : FS :=
  { kind := fun _ => none, cacheFile := some (some (JVal.jnum 42)),
    cacheWritable := true, fileLines := fun _ => none }

/-- A persisted store whose entry for the key is a string, not an
object. -/
def fsStoreBadEntry : FS :=
  { kind := fun _ => none,
    cacheFile := some (some (JVal.jobj
      [("/opt/ndk:linux-x86_64", JVal.jstr "bogus")])),
    cacheWritable := true, fileLines := fun _ => none }

/-! Fixtures for the relative-root counterexample (claim C8): the same
valid NDK layout under the relative root `ndk`. -/

/-- Fixture for the validator witness (claim C10): an NDK root that is a
directory whose three required relative paths are regular files. -/
def fsNdkFiles : FS :=
  { kind := fun p =>
      if p = "/r" then some FileKind.dir
      else if p = "/r/toolchains/llvm/prebuilt" then some FileKind.file
      else if p = "/r/build/cmake" then some FileKind.file
      else if p = "/r/sources" then some FileKind.file
      else none,
    cacheFile := none, cacheWritable := true, fileLines := fun _ => none }

/-- A Linux environment with caching disabled. -/
def envNoCache : Env :=
  { cacheEnabled := false, now := 0, sysPlatform := "linux",
    system := "linux", machine := "x86_64" }

/-- A complete NDK installation under the relative path `ndk`. -/
def fsRelative : FS :=
  { kind := fun p =>
      if p = "ndk" then some FileKind.dir
      else if p = "ndk/toolchains/llvm/prebuilt" then some FileKind.dir
      else if p = "ndk/build/cmake" then some FileKind.dir
      else if p = "ndk/sources" then some FileKind.dir
      else if p = "ndk/toolchains/llvm/prebuilt/linux-x86_64" then
        some FileKind.dir
      else if p = "ndk/toolchains/llvm/prebuilt/linux-x86_64/bin/clang" then
        some FileKind.file
      else if p = "ndk/toolchains/llvm/prebuilt/linux-x86_64/bin/clang++" then
        some FileKind.file
      else none,
    cacheFile := none, cacheWritable := true, fileLines := fun _ => none }

/-! Fixtures for the eviction witnesses (claims C3 and C9): a full
10-entry store with numeric timestamps 1..10. -/

/-- A persisted store of 10 entries with timestamps 1..10. -/
def storeTen : List (String × JVal) :=
  [("k0", JVal.jobj [("timestamp", JVal.jnum 1)]),
   ("k1", JVal.jobj [("timestamp", JVal.jnum 2)]),
   ("k2", JVal.jobj [("timestamp", JVal.jnum 3)]),
   ("k3", JVal.jobj [("timestamp", JVal.jnum 4)]),
   ("k4", JVal.jobj [("timestamp", JVal.jnum 5)]),
   ("k5", JVal.jobj [("timestamp", JVal.jnum 6)]),
   ("k6", JVal.jobj [("timestamp", JVal.jnum 7)]),
   ("k7", JVal.jobj [("timestamp", JVal.jnum 8)]),
   ("k8", JVal.jobj [("timestamp", JVal.jnum 9)]),
   ("k9", JVal.jobj [("timestamp", JVal.jnum 10)])]

/-- A writable filesystem persisting `storeTen`. -/
def fsStoreTen : FS :=
  { kind := fun _ => none, cacheFile := some (some (JVal.jobj storeTen)),
    cacheWritable := true, fileLines := fun _ => none }

/-- Caching enabled, clock at 20s (later than every `storeTen` stamp). -/
def envNow20 : Env :=
  { cacheEnabled := true, now := 20, sysPlatform := "linux",
    system := "linux", machine := "x86_64" }

/-- Caching enabled, clock at 0s (earlier than every `storeTen` stamp). -/
def envNow0 : Env :=
  { cacheEnabled := true, now := 0, sysPlatform := "linux",
    system := "linux", machine := "x86_64" }

end ToolchainScript

namespace ToolchainScript

/-! ## Helper lemmas about the embedded operations -/

/-- Joining paths never yields the empty string. -/
lemma pathJoin_ne_empty (a b : String) : pathJoin a b ≠ "" := by
  intro h
  have hlen := congrArg String.length h
  have h1 : "/".length = 1 := by decide
  have h0 : "".length = 0 := by decide
  rw [pathJoin, String.length_append, String.length_append, h1, h0] at hlen
  omega

/-- A successful `jLookup` exhibits a member of the association list. -/
lemma jLookup_mem {l : List (String × JVal)} {k : String} {v : JVal}
    (h : jLookup l k = some v) : (k, v) ∈ l := by
  induction l with
  | nil => cases h
  | cons p ps ih =>
    rw [jLookup] at h
    by_cases hk : p.1 = k
    · rw [if_pos hk] at h
      have hv : v = p.2 := by
        injection h with h2
        exact h2.symm
      have hkv : (k, v) = p := by rw [← hk, hv]
      rw [hkv]
      exact List.mem_cons_self p ps
    · rw [if_neg hk] at h
      exact List.mem_cons_of_mem p (ih h)

/-- Inserting a key absent from the store appends the new pair. -/
lemma dictInsert_fresh (l : List (String × JVal)) (k : String) (v : JVal)
    (h : ∀ p ∈ l, p.1 ≠ k) : dictInsert l k v = l ++ [(k, v)] := by
  have hany : l.any (fun p => p.1 == k) = false := by
    rw [List.any_eq_false]
    intro p hp
    simpa using h p hp
  rw [dictInsert, hany]
  simp

/-- Python dict insertion grows the store by at most one pair. -/
lemma dictInsert_length_le (l : List (String × JVal)) (k : String) (v : JVal) :
    (dictInsert l k v).length ≤ l.length + 1 := by
  rw [dictInsert]
  by_cases hany : l.any (fun p => p.1 == k) = true
  · rw [if_pos hany]
    simp
  · rw [if_neg hany]
    simp

/-- Building `dict(pairs)` yields at most as many entries as the pair list. -/
lemma listToDict_length_le (l : List (String × JVal)) :
    (listToDict l).length ≤ l.length := by
  have haux : ∀ (m acc : List (String × JVal)),
      (m.foldl (fun acc p => dictInsert acc p.1 p.2) acc).length ≤
        acc.length + m.length := by
    intro m
    induction m with
    | nil => intro acc; simp
    | cons p ps ih =>
      intro acc
      rw [List.foldl_cons]
      calc (ps.foldl (fun acc p => dictInsert acc p.1 p.2)
              (dictInsert acc p.1 p.2)).length
          ≤ (dictInsert acc p.1 p.2).length + ps.length := ih _
        _ ≤ (acc.length + 1) + ps.length := by
            have := dictInsert_length_le acc p.1 p.2
            omega
        _ = acc.length + (p :: ps).length := by
            rw [List.length_cons]
            omega
  have := haux l []
  simpa [listToDict] using this

/-- On a pair list with pairwise distinct keys, `dict(pairs)` keeps every
pair in order. -/
lemma listToDict_of_nodup_keys :
    ∀ (l : List (String × JVal)), (l.map Prod.fst).Nodup →
      listToDict l = l := by
  have haux : ∀ (l acc : List (String × JVal)),
      (l.map Prod.fst).Nodup →
      (∀ p ∈ l, ∀ q ∈ acc, p.1 ≠ q.1) →
      l.foldl (fun acc p => dictInsert acc p.1 p.2) acc = acc ++ l := by
    intro l
    induction l with
    | nil => intro acc _ _; simp
    | cons p ps ih =>
      intro acc hnd hdisj
      rw [List.foldl_cons]
      have hfresh : ∀ q ∈ acc, q.1 ≠ p.1 := fun q hq =>
        (hdisj p (List.mem_cons_self p ps) q hq).symm
      rw [dictInsert_fresh acc p.1 p.2 hfresh]
      have hnd0 : (p.1 :: ps.map Prod.fst).Nodup := by simpa using hnd
      have hhead := (List.nodup_cons.mp hnd0).1
      have hnd' : (ps.map Prod.fst).Nodup := (List.nodup_cons.mp hnd0).2
      have hdisj' : ∀ q ∈ ps, ∀ r ∈ acc ++ [p], q.1 ≠ r.1 := by
        intro q hq r hr
        rcases List.mem_append.mp hr with h1 | h1
        · exact hdisj q (List.mem_cons_of_mem p hq) r h1
        · have hrp : r = p := by simpa using h1
          subst hrp
          intro hqp
          exact hhead (List.mem_map.mpr ⟨q, hq, hqp⟩)
      rw [ih (acc ++ [p]) hnd' hdisj']
      simp
  intro l hnd
  have := haux l [] hnd (by simp)
  simpa [listToDict] using this

/-- When every stored entry carries a numeric timestamp, the sort runs in
numeric mode. -/
lemma classifyKeys_num (l : List (String × JVal))
    (h : ∀ p ∈ l, keyClassOf p.2 = Except.ok TsKind.numK) :
    classifyKeys l = Except.ok SortMode.byNum := by
  have hc : collectKinds l = Except.ok (l.map fun _ => TsKind.numK) := by
    induction l with
    | nil => rfl
    | cons p ps ih =>
      rw [collectKinds, h p (List.mem_cons_self p ps),
        ih (fun q hq => h q (List.mem_cons_of_mem p hq))]
      rfl
  rw [classifyKeys, hc]
  have hall : (l.map fun _ => TsKind.numK).all (fun c => c == TsKind.numK)
      = true := by
    rw [List.all_eq_true]
    intro c hc2
    rcases List.mem_map.mp hc2 with ⟨_, _, hcc⟩
    rw [← hcc]
    rfl
  simp [hall]

/-- A trimmed (or untouched but small) store has at most 10 entries. -/
lemma cutLast10_length_le10 (s : List (String × JVal)) :
    (cutLast10 s).length ≤ 10 := by
  rw [cutLast10]
  calc (listToDict (s.drop (s.length - 10))).length
      ≤ (s.drop (s.length - 10)).length := listToDict_length_le _
    _ ≤ 10 := by rw [List.length_drop]; omega

/-- Whatever store the eviction step accepts, it hands at most 10 entries
to the writer. -/
lemma trimStore_ok_le10 {l r : List (String × JVal)}
    (h : trimStore l = Except.ok r) : r.length ≤ 10 := by
  rw [trimStore] at h
  by_cases hl : l.length > 10
  · rw [if_pos hl] at h
    cases hck : classifyKeys l with
    | error e => rw [hck] at h; cases h
    | ok m =>
      rw [hck] at h
      cases m with
      | byNum =>
        have hr : r = cutLast10 (List.insertionSort tsNumLe l) := by
          injection h with h2
          exact h2.symm
        rw [hr]
        exact cutLast10_length_le10 _
      | byStr =>
        have hr : r = cutLast10 (List.insertionSort tsStrLe l) := by
          injection h with h2
          exact h2.symm
        rw [hr]
        exact cutLast10_length_le10 _
  · rw [if_neg hl] at h
    have hr : r = l := by
      injection h with h2
      exact h2.symm
    rw [hr]
    omega

/-- A strictly smallest element (by timestamp) of a store comes first in
the insertion sort, and the rest is a permutation of the others. -/
lemma insertionSort_min_split (l : List (String × JVal)) (e : String × JVal)
    (he : e ∈ l)
    (hmin : ∀ p ∈ l, p ≠ e → tsNum e.2 < tsNum p.2) :
    ∃ t, List.insertionSort tsNumLe l = e :: t ∧ (e :: t).Perm l := by
  have hperm : (List.insertionSort tsNumLe l).Perm l :=
    List.perm_insertionSort tsNumLe l
  have hsorted := List.sorted_insertionSort tsNumLe l
  cases hs : List.insertionSort tsNumLe l with
  | nil =>
    rw [hs] at hperm
    exact absurd (hperm.symm.mem_iff.mp he) (List.not_mem_nil e)
  | cons h0 t =>
    rw [hs] at hperm hsorted
    have hhl : h0 ∈ l := hperm.mem_iff.mp (List.mem_cons_self h0 t)
    have hall : ∀ y ∈ t, tsNumLe h0 y := (List.sorted_cons.mp hsorted).1
    have hhe : h0 = e := by
      by_contra hne
      have h1 : tsNum e.2 < tsNum h0.2 := hmin h0 hhl hne
      have h2 : e ∈ h0 :: t := hperm.mem_iff.mpr he
      rcases List.mem_cons.mp h2 with h3 | h3
      · exact hne h3.symm
      · have h4 := hall e h3
        rw [tsNumLe] at h4
        omega
    subst hhe
    exact ⟨t, rfl, hperm⟩

/-- Trimming an 11-entry store with distinct keys, numeric timestamps and
a strictly smallest entry `e` drops exactly `e` and keeps the other 10. -/
lemma trimStore_eleven (kvs1 : List (String × JVal)) (e : String × JVal)
    (hlen : kvs1.length = 11)
    (hwf : ∀ p ∈ kvs1, keyClassOf p.2 = Except.ok TsKind.numK)
    (hkeys : (kvs1.map Prod.fst).Nodup)
    (he : e ∈ kvs1)
    (hmin : ∀ p ∈ kvs1, p ≠ e → tsNum e.2 < tsNum p.2) :
    ∃ t, trimStore kvs1 = Except.ok t ∧ e ∉ t ∧ t.length = 10 ∧
      (∀ p ∈ t, p ∈ kvs1) ∧ (∀ p ∈ kvs1, p ≠ e → p ∈ t) ∧
      (t.map Prod.fst).Nodup := by
  obtain ⟨t0, hs, hperm⟩ := insertionSort_min_split kvs1 e he hmin
  have hslen : (List.insertionSort tsNumLe kvs1).length = 11 := by
    rw [List.length_insertionSort, hlen]
  rw [hs] at hslen
  have ht0len : t0.length = 10 := by
    rw [List.length_cons] at hslen
    omega
  have hkeys2 : ((e :: t0).map Prod.fst).Nodup :=
    ((hperm.map Prod.fst).nodup_iff).mpr hkeys
  have hkeyt0 : (t0.map Prod.fst).Nodup := by
    rw [List.map_cons] at hkeys2
    exact (List.nodup_cons.mp hkeys2).2
  have hnd2 : (e :: t0).Nodup := List.Nodup.of_map Prod.fst hkeys2
  have hent0 : e ∉ t0 := (List.nodup_cons.mp hnd2).1
  have hcut : cutLast10 (e :: t0) = t0 := by
    rw [cutLast10, List.length_cons, ht0len]
    simp [listToDict_of_nodup_keys t0 hkeyt0]
  refine ⟨t0, ?_, hent0, ht0len, ?_, ?_, hkeyt0⟩
  · rw [trimStore, if_pos (by omega : kvs1.length > 10),
      classifyKeys_num kvs1 hwf, hs, hcut]
  · intro p hp
    exact hperm.mem_iff.mp (List.mem_cons_of_mem e hp)
  · intro p hp hne
    rcases List.mem_cons.mp (hperm.mem_iff.mpr hp) with h1 | h1
    · exact absurd h1 hne
    · exact h1

/-- The entry written by `cache_toolchain_path` carries the numeric
timestamp `env.now`. -/
lemma tsNum_mkEntry (env : Env) (fs : FS) (n h tp : String) :
    tsNum (mkEntry env fs n h tp) = env.now := rfl

/-- The entry written by `cache_toolchain_path` has a number-like sort
key. -/
lemma keyClassOf_mkEntry (env : Env) (fs : FS) (n h tp : String) :
    keyClassOf (mkEntry env fs n h tp) = Except.ok TsKind.numK := rfl

/-- Appending a fresh key preserves distinctness of the store's keys. -/
lemma keys_nodup_append (kvs : List (String × JVal)) (key : String)
    (entry : JVal) (hkeys : (kvs.map Prod.fst).Nodup)
    (hfresh : ∀ p ∈ kvs, p.1 ≠ key) :
    ((kvs ++ [(key, entry)]).map Prod.fst).Nodup := by
  rw [List.map_append, List.nodup_append]
  refine ⟨hkeys, List.nodup_singleton _, ?_⟩
  intro a ha hb
  rcases List.mem_map.mp ha with ⟨p, hp, hpa⟩
  have hbk : a = key := by simpa using hb
  exact hfresh p hp (hpa.trans hbk)

/-- Whenever the persist step succeeds, it writes a JSON object of at
most 10 entries. -/
lemma cacheStorePut_ok_le10 {env : Env} {fs : FS} {n h tp : String}
    {kvs : List (String × JVal)} {fs1 : FS}
    (hok : cacheStorePut env fs n h tp kvs = Except.ok fs1) :
    ∃ l, fs1.cacheFile = some (some (JVal.jobj l)) ∧ l.length ≤ 10 := by
  simp only [cacheStorePut] at hok
  split at hok
  next e heq => cases hok
  next kvs2 heq =>
    split at hok
    next hw =>
      have hfs1 : fs1 = { fs with cacheFile := some (some (JVal.jobj kvs2)) } := by
        injection hok with h2
        exact h2.symm
      rw [hfs1]
      exact ⟨kvs2, rfl, trimStore_ok_le10 heq⟩
    next hw => cases hok

/-- Inserting a fresh key into a full 10-entry store with distinct keys
and numeric timestamps: the persist step drops exactly the strictly
smallest entry `e` and writes the other 10. -/
lemma cacheStorePut_eleven (env : Env) (fs : FS) (n h tp : String)
    (kvs : List (String × JVal)) (e : String × JVal)
    (hw : fs.cacheWritable = true)
    (hlen : kvs.length = 10)
    (hkeys : (kvs.map Prod.fst).Nodup)
    (hfresh : ∀ p ∈ kvs, p.1 ≠ n ++ ":" ++ h)
    (hwf : ∀ p ∈ kvs, keyClassOf p.2 = Except.ok TsKind.numK)
    (he : e ∈ kvs ++ [(n ++ ":" ++ h, mkEntry env fs n h tp)])
    (hmin : ∀ p ∈ kvs ++ [(n ++ ":" ++ h, mkEntry env fs n h tp)],
      p ≠ e → tsNum e.2 < tsNum p.2) :
    ∃ t, cacheStorePut env fs n h tp kvs =
        Except.ok { fs with cacheFile := some (some (JVal.jobj t)) } ∧
      e ∉ t ∧ t.length = 10 ∧
      (∀ p ∈ t, p ∈ kvs ++ [(n ++ ":" ++ h, mkEntry env fs n h tp)]) ∧
      (∀ p ∈ kvs ++ [(n ++ ":" ++ h, mkEntry env fs n h tp)],
        p ≠ e → p ∈ t) ∧
      (t.map Prod.fst).Nodup := by
  have hlen1 : (kvs ++ [(n ++ ":" ++ h, mkEntry env fs n h tp)]).length = 11 := by
    rw [List.length_append, hlen]
    rfl
  have hwf1 : ∀ p ∈ kvs ++ [(n ++ ":" ++ h, mkEntry env fs n h tp)],
      keyClassOf p.2 = Except.ok TsKind.numK := by
    intro p hp
    rcases List.mem_append.mp hp with h1 | h1
    · exact hwf p h1
    · have hpe : p = (n ++ ":" ++ h, mkEntry env fs n h tp) := by
        simpa using h1
      rw [hpe]
      exact keyClassOf_mkEntry env fs n h tp
  have hkeys1 := keys_nodup_append kvs (n ++ ":" ++ h) (mkEntry env fs n h tp)
    hkeys hfresh
  obtain ⟨t, htrim, hnot, htl, hsub, hkeep, hnd⟩ :=
    trimStore_eleven _ e hlen1 hwf1 hkeys1 he hmin
  refine ⟨t, ?_, hnot, htl, hsub, hkeep, hnd⟩
  simp only [cacheStorePut]
  rw [dictInsert_fresh kvs (n ++ ":" ++ h) (mkEntry env fs n h tp) hfresh,
    htrim]
  simp [hw]

/-- With caching enabled and a parsed object store, `cache_toolchain_path`
is the persist step on that store. -/
lemma cache_toolchain_path_jobj {env : Env} {fs : FS} {n h tp : String}
    {kvs : List (String × JVal)}
    (hen : env.cacheEnabled = true)
    (hcf : fs.cacheFile = some (some (JVal.jobj kvs))) :
    cache_toolchain_path env fs n h tp = cacheStorePut env fs n h tp kvs := by
  rw [cache_toolchain_path, if_pos hen, hcf]

/-- A non-empty valid cached path short-circuits `find_toolchain_path`. -/
lemma find_toolchain_path_of_hit {env : Env} {fs : FS} {n h c : String}
    (hget : get_cached_toolchain_path env fs n h = Except.ok (some c, fs))
    (hc : c ≠ "") :
    find_toolchain_path env fs n h = Except.ok (some c, fs) := by
  rw [find_toolchain_path, hget]
  simp [hc]

/-- On a cache miss, `find_toolchain_path` falls through to the fresh
resolution. -/
lemma find_toolchain_path_of_miss {env : Env} {fs : FS} {n h : String}
    (hget : get_cached_toolchain_path env fs n h = Except.ok (none, fs)) :
    find_toolchain_path env fs n h = findFresh env fs n h := by
  rw [find_toolchain_path, hget]

/-- The fresh resolution succeeds when the candidate directory and all
required tools exist and the cache write goes through. -/
lemma findFresh_success {env : Env} {fs fs1 : FS} {n h : String}
    (hex : fs.existsP (toolchainPathOf n h) = true)
    (hall : (requiredTools env.sysPlatform).all
      (fun t => fs.existsP (pathJoin (toolchainPathOf n h) t)) = true)
    (hcache : cache_toolchain_path env fs n h (toolchainPathOf n h) =
      Except.ok fs1) :
    findFresh env fs n h = Except.ok (some (toolchainPathOf n h), fs1) := by
  simp only [findFresh]
  rw [if_pos hex, if_pos hall, hcache]

/-- Evaluation of the cache read on a store holding a well-formed entry
(string path, numeric timestamp) for the requested key. -/
lemma get_cached_entry_eval (env : Env) (fs : FS) (n h : String)
    (kvs ekvs : List (String × JVal)) (p : String) (t : Int)
    (hen : env.cacheEnabled = true)
    (hcf : fs.cacheFile = some (some (JVal.jobj kvs)))
    (hkey : jLookup kvs (n ++ ":" ++ h) = some (JVal.jobj ekvs))
    (hpath : jLookup ekvs "path" = some (JVal.jstr p))
    (hts : jLookup ekvs "timestamp" = some (JVal.jnum t)) :
    get_cached_toolchain_path env fs n h =
      if env.now - t < 86400 then
        (if fs.existsP p then Except.ok (some p, fs)
         else Except.ok (none, fs))
      else Except.ok (none, fs) := by
  rw [get_cached_toolchain_path, if_pos hen, hcf]
  simp only [hkey, hpath, hts, Option.getD_some, jNumVal]

/-! ## Claim theorems -/

/-- C3: after every successful `cache_toolchain_path` with caching
enabled, the persisted store is a JSON object of at most 10 entries;
moreover, inserting an 11th distinct key into a 10-entry store whose
keys are distinct, whose timestamps are numeric, and whose entry of
smallest timestamp (key `mk`, value `mv`) is strictly smallest, leaves
exactly 10 entries, the smallest-timestamp entry absent and every other
entry retained. -/
theorem c3_store_bounded_and_min_evicted :
    (∀ (env : Env) (fs : FS) (n h tp : String) (fs1 : FS),
      env.cacheEnabled = true →
      cache_toolchain_path env fs n h tp = Except.ok fs1 →
      ∃ l, fs1.cacheFile = some (some (JVal.jobj l)) ∧ l.length ≤ 10) ∧
    (∀ (env : Env) (fs : FS) (n h tp : String)
      (kvs : List (String × JVal)) (mk : String) (mv : JVal),
      env.cacheEnabled = true →
      fs.cacheWritable = true →
      fs.cacheFile = some (some (JVal.jobj kvs)) →
      kvs.length = 10 →
      (kvs.map Prod.fst).Nodup →
      (∀ p ∈ kvs, p.1 ≠ n ++ ":" ++ h) →
      (∀ p ∈ kvs, keyClassOf p.2 = Except.ok TsKind.numK) →
      jLookup (kvs ++ [(n ++ ":" ++ h, mkEntry env fs n h tp)]) mk = some mv →
      (∀ p ∈ kvs ++ [(n ++ ":" ++ h, mkEntry env fs n h tp)],
        p.1 ≠ mk → tsNum mv < tsNum p.2) →
      ∃ l, cache_toolchain_path env fs n h tp =
          Except.ok { fs with cacheFile := some (some (JVal.jobj l)) } ∧
        l.length = 10 ∧ (∀ p ∈ l, p.1 ≠ mk) ∧
        (∀ p ∈ kvs ++ [(n ++ ":" ++ h, mkEntry env fs n h tp)],
          p.1 ≠ mk → p ∈ l)) := by
  constructor
  · intro env fs n h tp fs1 hen hok
    rw [cache_toolchain_path, if_pos hen] at hok
    cases hcf : fs.cacheFile with
    | none =>
      rw [hcf] at hok
      exact cacheStorePut_ok_le10 hok
    | some o =>
      cases o with
      | none => rw [hcf] at hok; cases hok
      | some d =>
        cases d with
        | jobj kvs => rw [hcf] at hok; exact cacheStorePut_ok_le10 hok
        | jnull => rw [hcf] at hok; cases hok
        | jbool b => rw [hcf] at hok; cases hok
        | jnum x => rw [hcf] at hok; cases hok
        | jstr s => rw [hcf] at hok; cases hok
        | jarr xs => rw [hcf] at hok; cases hok
  · intro env fs n h tp kvs mk mv hen hw hcf hlen hkeys hfresh hwf hjl hmin
    have hkeys1 := keys_nodup_append kvs (n ++ ":" ++ h)
      (mkEntry env fs n h tp) hkeys hfresh
    have he : (mk, mv) ∈ kvs ++ [(n ++ ":" ++ h, mkEntry env fs n h tp)] :=
      jLookup_mem hjl
    have hinj := List.inj_on_of_nodup_map hkeys1
    have hminp : ∀ p ∈ kvs ++ [(n ++ ":" ++ h, mkEntry env fs n h tp)],
        p ≠ (mk, mv) → tsNum (mk, mv).2 < tsNum p.2 := by
      intro p hp hpe
      refine hmin p hp ?_
      intro hpk
      exact hpe (hinj hp he hpk)
    obtain ⟨t, hput, hnot, htl, hsub, hkeep, hnd⟩ :=
      cacheStorePut_eleven env fs n h tp kvs (mk, mv) hw hlen hkeys hfresh
        hwf he hminp
    refine ⟨t, ?_, htl, ?_, ?_⟩
    · rw [cache_toolchain_path_jobj hen hcf]
      exact hput
    · intro p hp hpk
      have hpe : p = (mk, mv) := hinj (hsub p hp) he hpk
      rw [hpe] at hp
      exact hnot hp
    · intro p hp hpk
      refine hkeep p hp ?_
      intro hpe
      rw [hpe] at hpk
      exact hpk rfl

/-- C3 witness: inserting the fresh key into the concrete full store
`storeTen` at time 20 keeps 10 entries and drops `k0` (timestamp 1). -/
theorem c3_store_bounded_and_min_evicted_witness :
    ∃ l, cache_toolchain_path envNow20 fsStoreTen "n" "h" "tp" =
        Except.ok { fsStoreTen with cacheFile := some (some (JVal.jobj l)) } ∧
      l.length = 10 ∧ (∀ p ∈ l, p.1 ≠ "k0") ∧
      (∀ p ∈ storeTen ++ [("n" ++ ":" ++ "h",
        mkEntry envNow20 fsStoreTen "n" "h" "tp")], p.1 ≠ "k0" → p ∈ l) :=
  c3_store_bounded_and_min_evicted.2 envNow20 fsStoreTen "n" "h" "tp" storeTen
    "k0" (JVal.jobj [("timestamp", JVal.jnum 1)]) rfl rfl rfl rfl
    (by decide) (by decide) (by decide) rfl (by decide)

/-- C9: `cache_toolchain_path` does not guarantee the just-inserted key
survives: when the other 10 entries all have strictly later timestamps,
eviction keeps those 10 and drops the new entry itself. -/
theorem c9_new_entry_evicted :
    ∀ (env : Env) (fs : FS) (n h tp : String) (kvs : List (String × JVal)),
      env.cacheEnabled = true →
      fs.cacheWritable = true →
      fs.cacheFile = some (some (JVal.jobj kvs)) →
      kvs.length = 10 →
      (kvs.map Prod.fst).Nodup →
      (∀ p ∈ kvs, p.1 ≠ n ++ ":" ++ h) →
      (∀ p ∈ kvs, keyClassOf p.2 = Except.ok TsKind.numK) →
      (∀ p ∈ kvs, env.now < tsNum p.2) →
      ∃ l, cache_toolchain_path env fs n h tp =
          Except.ok { fs with cacheFile := some (some (JVal.jobj l)) } ∧
        l.length = 10 ∧ (∀ p ∈ l, p.1 ≠ n ++ ":" ++ h) ∧
        (∀ p ∈ kvs, p ∈ l) := by
  intro env fs n h tp kvs hen hw hcf hlen hkeys hfresh hwf hnewer
  have he : (n ++ ":" ++ h, mkEntry env fs n h tp) ∈
      kvs ++ [(n ++ ":" ++ h, mkEntry env fs n h tp)] := by simp
  have hminp : ∀ p ∈ kvs ++ [(n ++ ":" ++ h, mkEntry env fs n h tp)],
      p ≠ (n ++ ":" ++ h, mkEntry env fs n h tp) →
      tsNum (n ++ ":" ++ h, mkEntry env fs n h tp).2 < tsNum p.2 := by
    intro p hp hpe
    rcases List.mem_append.mp hp with h1 | h1
    · have h2 := hnewer p h1
      have h3 : tsNum (n ++ ":" ++ h, mkEntry env fs n h tp).2 = env.now :=
        tsNum_mkEntry env fs n h tp
      omega
    · exact absurd (by simpa using h1) hpe
  obtain ⟨t, hput, hnot, htl, hsub, hkeep, hnd⟩ :=
    cacheStorePut_eleven env fs n h tp kvs
      (n ++ ":" ++ h, mkEntry env fs n h tp) hw hlen hkeys hfresh hwf he hminp
  refine ⟨t, ?_, htl, ?_, ?_⟩
  · rw [cache_toolchain_path_jobj hen hcf]
    exact hput
  · intro p hp hpk
    rcases List.mem_append.mp (hsub p hp) with h1 | h1
    · exact hfresh p h1 hpk
    · have hpe : p = (n ++ ":" ++ h, mkEntry env fs n h tp) := by
        simpa using h1
      rw [hpe] at hp
      exact hnot hp
  · intro p hp
    refine hkeep p (List.mem_append.mpr (Or.inl hp)) ?_
    intro hpe
    have hpk : p.1 = n ++ ":" ++ h := by rw [hpe]
    exact hfresh p hp hpk

/-- C9 witness: inserting the fresh key into `storeTen` at time 0 (all
stored timestamps are later) keeps the 10 old entries and drops the new
key. -/
theorem c9_new_entry_evicted_witness :
    ∃ l, cache_toolchain_path envNow0 fsStoreTen "n" "h" "tp" =
        Except.ok { fsStoreTen with cacheFile := some (some (JVal.jobj l)) } ∧
      l.length = 10 ∧ (∀ p ∈ l, p.1 ≠ "n" ++ ":" ++ "h") ∧
      (∀ p ∈ storeTen, p ∈ l) :=
  c9_new_entry_evicted envNow0 fsStoreTen "n" "h" "tp" storeTen rfl rfl rfl
    rfl (by decide) (by decide) (by decide) (by decide)

/-- C1 (code bug): a cache-write failure is fatal, not non-fatal.  On a
valid NDK with caching enabled and an unwritable cache file, handling
the write's `OSError` evaluates the `except` clause's nonexistent
`json.JSONEncodeError`, so an uncaught `AttributeError` aborts the run:
the resolved path is lost and the program exits 1 with empty stdout,
while the identical filesystem with a writable cache resolves the path
and exits 0. -/
theorem c1_cache_write_failure_is_fatal :
    cache_toolchain_path envLinux fsUnwritable "/opt/ndk" "linux-x86_64"
        "/opt/ndk/toolchains/llvm/prebuilt/linux-x86_64" =
      Except.error PyExc.attributeError ∧
    find_toolchain_path envLinux fsUnwritable "/opt/ndk" "linux-x86_64" =
      Except.error PyExc.attributeError ∧
    mainResult envLinux fsUnwritable "/opt/ndk" = ([], 1) ∧
    mainResult envLinux fsWritable "/opt/ndk" =
      (["/opt/ndk/toolchains/llvm/prebuilt/linux-x86_64"], 0) :=
  ⟨rfl, rfl, rfl, rfl⟩

/-- C6 (code bug): `get_cached_toolchain_path` can raise on malformed
persisted content.  A store whose JSON document is the number `42` makes
the membership test raise an uncaught `TypeError`; a store whose entry
for the key is a string makes `.get` raise an uncaught
`AttributeError`. -/
theorem c6_get_cached_raises_on_malformed_store :
    get_cached_toolchain_path envLinux fsStoreNumber "/opt/ndk"
      "linux-x86_64" = Except.error PyExc.typeError ∧
    get_cached_toolchain_path envLinux fsStoreBadEntry "/opt/ndk"
      "linux-x86_64" = Except.error PyExc.attributeError :=
  ⟨rfl, rfl⟩

/-- C7: a well-formed cache entry is returned exactly when its age is
strictly below 86400 seconds and the stored path exists; an entry aged
86400 seconds or more is a miss even if the path exists, and the read
leaves the persisted store untouched (the returned filesystem is the
input one). -/
theorem c7_cache_hit_requires_fresh_and_existing :
    ∀ (env : Env) (fs : FS) (n h : String)
      (kvs ekvs : List (String × JVal)) (p : String) (t : Int),
      env.cacheEnabled = true →
      fs.cacheFile = some (some (JVal.jobj kvs)) →
      jLookup kvs (n ++ ":" ++ h) = some (JVal.jobj ekvs) →
      jLookup ekvs "path" = some (JVal.jstr p) →
      jLookup ekvs "timestamp" = some (JVal.jnum t) →
      ((get_cached_toolchain_path env fs n h = Except.ok (some p, fs)) ↔
        (env.now - t < 86400 ∧ fs.existsP p = true)) ∧
      (86400 ≤ env.now - t →
        get_cached_toolchain_path env fs n h = Except.ok (none, fs)) := by
  intro env fs n h kvs ekvs p t hen hcf hkey hpath hts
  have heval := get_cached_entry_eval env fs n h kvs ekvs p t hen hcf hkey
    hpath hts
  constructor
  · rw [heval]
    by_cases htime : env.now - t < 86400
    · rw [if_pos htime]
      by_cases hex : fs.existsP p = true
      · rw [if_pos hex]
        simp [htime, hex]
      · rw [if_neg hex]
        simp [htime, hex]
    · rw [if_neg htime]
      simp [htime]
  · intro hstale
    rw [heval, if_neg (by omega)]

/-- C7 witness: the concrete entry stamped at time 0 is a hit at 86000s
and a miss at 86500s even though the stored path still exists. -/
theorem c7_cache_hit_requires_fresh_and_existing_witness :
    get_cached_toolchain_path envFirstCall fsStaleHit "/n" "linux-x86_64" =
      Except.ok (some "/n/toolchains/llvm/prebuilt/linux-x86_64",
        fsStaleHit) ∧
    get_cached_toolchain_path envSecondCall fsStaleHit "/n" "linux-x86_64" =
      Except.ok (none, fsStaleHit) :=
  ⟨((c7_cache_hit_requires_fresh_and_existing envFirstCall fsStaleHit "/n"
      "linux-x86_64"
      [("/n:linux-x86_64", JVal.jobj
        [("path", JVal.jstr "/n/toolchains/llvm/prebuilt/linux-x86_64"),
         ("timestamp", JVal.jnum 0)])]
      [("path", JVal.jstr "/n/toolchains/llvm/prebuilt/linux-x86_64"),
       ("timestamp", JVal.jnum 0)]
      "/n/toolchains/llvm/prebuilt/linux-x86_64" 0
      rfl rfl rfl rfl rfl).1).mpr ⟨by decide, rfl⟩,
   (c7_cache_hit_requires_fresh_and_existing envSecondCall fsStaleHit "/n"
      "linux-x86_64"
      [("/n:linux-x86_64", JVal.jobj
        [("path", JVal.jstr "/n/toolchains/llvm/prebuilt/linux-x86_64"),
         ("timestamp", JVal.jnum 0)])]
      [("path", JVal.jstr "/n/toolchains/llvm/prebuilt/linux-x86_64"),
       ("timestamp", JVal.jnum 0)]
      "/n/toolchains/llvm/prebuilt/linux-x86_64" 0
      rfl rfl rfl rfl rfl).2 (by decide)⟩

/-- C2 counterexample: a successful `find_toolchain_path` (here a cache
hit on an entry stamped at time 0, taken at 86000s) followed 500s later
— within 24 hours of the first call — by a second call with identical
arguments that fails, because the entry's age is measured from its
creation, the hit did not refresh the timestamp, and the toolchain
executables are absent (only the directory itself exists). -/
theorem c2_counterexample :
    find_toolchain_path envFirstCall fsStaleHit "/n" "linux-x86_64" =
      Except.ok (some "/n/toolchains/llvm/prebuilt/linux-x86_64",
        fsStaleHit) ∧
    envSecondCall.now - envFirstCall.now < 86400 ∧
    fsStaleHit.existsP "/n/toolchains/llvm/prebuilt/linux-x86_64" = true ∧
    find_toolchain_path envSecondCall fsStaleHit "/n" "linux-x86_64" =
      Except.ok (none, fsStaleHit) :=
  ⟨rfl, by decide, rfl, rfl⟩

/-- C2 (amended): with caching enabled and no pre-existing cache store,
after a successful fresh resolution (which writes an entry stamped with
the resolution time), every later call with the same arguments within
86400s of the first call's clock, on any filesystem carrying the same
persisted store in which the toolchain directory still exists, returns
the same path from the cache — regardless of whether the executables are
still present.  (The unamended claim fails when the first call is itself
a cache hit: the 24h window runs from the entry's creation, not from the
first call.) -/
theorem c2_cache_round_trip_after_fresh_resolution :
    ∀ (env1 : Env) (fs : FS) (n h : String),
      env1.cacheEnabled = true →
      fs.cacheFile = none →
      fs.cacheWritable = true →
      fs.existsP (toolchainPathOf n h) = true →
      (requiredTools env1.sysPlatform).all
        (fun t => fs.existsP (pathJoin (toolchainPathOf n h) t)) = true →
      ∃ fs1, find_toolchain_path env1 fs n h =
          Except.ok (some (toolchainPathOf n h), fs1) ∧
        ∀ (env2 : Env) (fs2 : FS),
          env2.cacheEnabled = true →
          env2.now - env1.now < 86400 →
          fs2.cacheFile = fs1.cacheFile →
          fs2.existsP (toolchainPathOf n h) = true →
          find_toolchain_path env2 fs2 n h =
            Except.ok (some (toolchainPathOf n h), fs2) := by
  intro env1 fs n h hen1 hcf1 hw hex1 hall1
  have hget1 : get_cached_toolchain_path env1 fs n h =
      Except.ok (none, fs) := by
    rw [get_cached_toolchain_path, if_pos hen1, hcf1]
  have hcache : cache_toolchain_path env1 fs n h (toolchainPathOf n h) =
      Except.ok { fs with cacheFile := some (some (JVal.jobj
        [(n ++ ":" ++ h, mkEntry env1 fs n h (toolchainPathOf n h))])) } := by
    rw [cache_toolchain_path, if_pos hen1, hcf1]
    simp only [cacheStorePut]
    rw [dictInsert_fresh [] (n ++ ":" ++ h)
      (mkEntry env1 fs n h (toolchainPathOf n h)) (by simp)]
    simp [trimStore, hw]
  refine ⟨{ fs with cacheFile := some (some (JVal.jobj
    [(n ++ ":" ++ h, mkEntry env1 fs n h (toolchainPathOf n h))])) }, ?_, ?_⟩
  · rw [find_toolchain_path_of_miss hget1]
    exact findFresh_success hex1 hall1 hcache
  · intro env2 fs2 hen2 hdt hcf2 hex2
    have hkey : jLookup
        [(n ++ ":" ++ h, mkEntry env1 fs n h (toolchainPathOf n h))]
        (n ++ ":" ++ h) = some (JVal.jobj
          [("path", JVal.jstr (toolchainPathOf n h)),
           ("timestamp", JVal.jnum env1.now),
           ("ndk_version", JVal.jstr (detect_ndk_version fs n)),
           ("host_tag", JVal.jstr h)]) := by
      simp [jLookup, mkEntry]
    have heval := get_cached_entry_eval env2 fs2 n h
      [(n ++ ":" ++ h, mkEntry env1 fs n h (toolchainPathOf n h))]
      [("path", JVal.jstr (toolchainPathOf n h)),
       ("timestamp", JVal.jnum env1.now),
       ("ndk_version", JVal.jstr (detect_ndk_version fs n)),
       ("host_tag", JVal.jstr h)]
      (toolchainPathOf n h) env1.now hen2 (by rw [hcf2]) hkey rfl rfl
    have hget2 : get_cached_toolchain_path env2 fs2 n h =
        Except.ok (some (toolchainPathOf n h), fs2) := by
      rw [heval, if_pos hdt, if_pos hex2]
    exact find_toolchain_path_of_hit hget2 (pathJoin_ne_empty _ _)

/-- C2 witness: on the concrete complete NDK with an absent store, the
fresh resolution at time 1000 and a re-read at time 1000 both yield the
toolchain path. -/
theorem c2_cache_round_trip_after_fresh_resolution_witness :
    ∃ fs1, find_toolchain_path envLinux fsWritable "/opt/ndk"
        "linux-x86_64" =
      Except.ok (some (toolchainPathOf "/opt/ndk" "linux-x86_64"), fs1) ∧
      ∀ (env2 : Env) (fs2 : FS),
        env2.cacheEnabled = true →
        env2.now - envLinux.now < 86400 →
        fs2.cacheFile = fs1.cacheFile →
        fs2.existsP (toolchainPathOf "/opt/ndk" "linux-x86_64") = true →
        find_toolchain_path env2 fs2 "/opt/ndk" "linux-x86_64" =
          Except.ok (some (toolchainPathOf "/opt/ndk" "linux-x86_64"), fs2) :=
  c2_cache_round_trip_after_fresh_resolution envLinux fsWritable "/opt/ndk"
    "linux-x86_64" rfl rfl rfl rfl (by decide)

/-- C5 counterexample: on a cygwin interpreter (`platform.system()`
lowercased is `cygwin`, one of the script's Windows family, so the host
tag is `windows-x86_64`), `sys.platform` is `cygwin`, which does not
start with `win`: the checked executables are `bin/clang` and
`bin/clang++` without the suffix, and resolution succeeds although
`bin/clang.exe` and `bin/clang++.exe` are absent. -/
theorem c5_counterexample :
    get_host_tag envCygwin fsCygwin (some "/n") = some "windows-x86_64" ∧
    requiredTools envCygwin.sysPlatform = ["bin/clang", "bin/clang++"] ∧
    fsCygwin.existsP (pathJoin "/n/toolchains/llvm/prebuilt/windows-x86_64"
      "bin/clang.exe") = false ∧
    fsCygwin.existsP (pathJoin "/n/toolchains/llvm/prebuilt/windows-x86_64"
      "bin/clang++.exe") = false ∧
    find_toolchain_path envCygwin fsCygwin "/n" "windows-x86_64" =
      Except.ok (some "/n/toolchains/llvm/prebuilt/windows-x86_64",
        fsCygwin) :=
  ⟨rfl, rfl, rfl, rfl, rfl⟩

/-- C5 (amended): the executable names checked by `find_toolchain_path`
bear the `.exe` suffix exactly when `sys.platform` starts with `win`,
independently of the host tag; a fresh resolution on an existing
candidate directory succeeds exactly when all of those tools exist. -/
theorem c5_suffix_follows_sys_platform :
    ∀ (env : Env) (fs : FS) (n h : String),
      env.cacheEnabled = false →
      fs.existsP (toolchainPathOf n h) = true →
      (strStartsWith env.sysPlatform "win" = true →
        requiredTools env.sysPlatform = ["bin/clang.exe", "bin/clang++.exe"]) ∧
      (strStartsWith env.sysPlatform "win" = false →
        requiredTools env.sysPlatform = ["bin/clang", "bin/clang++"]) ∧
      (find_toolchain_path env fs n h =
          Except.ok (some (toolchainPathOf n h), fs) ↔
        (requiredTools env.sysPlatform).all
          (fun t => fs.existsP (pathJoin (toolchainPathOf n h) t)) = true) := by
  intro env fs n h hdis hex
  refine ⟨?_, ?_, ?_⟩
  · intro hsw
    rw [requiredTools, if_pos hsw]
  · intro hsw
    rw [requiredTools, if_neg (by rw [hsw]; intro hcon; cases hcon)]
  · have hget : get_cached_toolchain_path env fs n h =
        Except.ok (none, fs) := by
      rw [get_cached_toolchain_path, if_neg (by rw [hdis]; intro hcon; cases hcon)]
    have hcache : cache_toolchain_path env fs n h (toolchainPathOf n h) =
        Except.ok fs := by
      rw [cache_toolchain_path, if_neg (by rw [hdis]; intro hcon; cases hcon)]
    rw [find_toolchain_path_of_miss hget]
    by_cases hall : (requiredTools env.sysPlatform).all
        (fun t => fs.existsP (pathJoin (toolchainPathOf n h) t)) = true
    · rw [findFresh_success hex hall hcache]
      simp [hall]
    · simp only [findFresh]
      rw [if_pos hex, if_neg hall]
      constructor
      · intro hcon
        have h2 : (none : Option String) = some (toolchainPathOf n h) := by
          injection hcon with h3
          exact congrArg Prod.fst h3
        cases h2
      · intro hcon
        exact absurd hcon hall

/-- C5 witness: on the concrete cygwin setup, the non-suffixed names are
required and the resolution equivalence holds with them present. -/
theorem c5_suffix_follows_sys_platform_witness :
    requiredTools envCygwin.sysPlatform = ["bin/clang", "bin/clang++"] ∧
    find_toolchain_path envCygwin fsCygwin "/n" "windows-x86_64" =
      Except.ok (some (toolchainPathOf "/n" "windows-x86_64"), fsCygwin) := by
  have h := c5_suffix_follows_sys_platform envCygwin fsCygwin "/n"
    "windows-x86_64" rfl rfl
  exact ⟨h.2.1 rfl, h.2.2.mpr (by decide)⟩

/-- C4: the host-tag policy table.  Linux and macOS map the four
recognized architecture spellings to their tags and fail on any other
machine string; the Windows family always yields `windows-x86_64` or the
legacy `windows`; every other system string fails. -/
theorem c4_host_tag_policy_table :
    ∀ (env : Env) (fs : FS) (nd : Option String),
      (env.system = "linux" →
        ((env.machine = "x86_64" ∨ env.machine = "amd64") →
          get_host_tag env fs nd = some "linux-x86_64") ∧
        ((env.machine = "aarch64" ∨ env.machine = "arm64") →
          get_host_tag env fs nd = some "linux-aarch64") ∧
        (env.machine ≠ "x86_64" → env.machine ≠ "amd64" →
          env.machine ≠ "aarch64" → env.machine ≠ "arm64" →
          get_host_tag env fs nd = none)) ∧
      (env.system = "darwin" →
        ((env.machine = "x86_64" ∨ env.machine = "amd64") →
          get_host_tag env fs nd = some "darwin-x86_64") ∧
        ((env.machine = "arm64" ∨ env.machine = "aarch64") →
          get_host_tag env fs nd = some "darwin-arm64") ∧
        (env.machine ≠ "x86_64" → env.machine ≠ "amd64" →
          env.machine ≠ "arm64" → env.machine ≠ "aarch64" →
          get_host_tag env fs nd = none)) ∧
      ((env.system = "windows" ∨ env.system = "win32" ∨
          env.system = "cygwin") →
        get_host_tag env fs nd = some "windows-x86_64" ∨
        get_host_tag env fs nd = some "windows") ∧
      (env.system ≠ "linux" → env.system ≠ "darwin" →
        env.system ≠ "windows" → env.system ≠ "win32" →
        env.system ≠ "cygwin" → get_host_tag env fs nd = none) := by
  intro env fs nd
  refine ⟨?_, ?_, ?_, ?_⟩
  · intro hs
    refine ⟨?_, ?_, ?_⟩
    · intro hm
      rw [get_host_tag.eq_def, if_pos hs, if_pos hm]
    · intro hm
      have hne : ¬(env.machine = "x86_64" ∨ env.machine = "amd64") := by
        rcases hm with hm | hm <;> rw [hm] <;> decide
      rw [get_host_tag.eq_def, if_pos hs, if_neg hne, if_pos hm]
    · intro h1 h2 h3 h4
      have hne1 : ¬(env.machine = "x86_64" ∨ env.machine = "amd64") := by
        intro hor
        rcases hor with hor | hor
        · exact h1 hor
        · exact h2 hor
      have hne2 : ¬(env.machine = "aarch64" ∨ env.machine = "arm64") := by
        intro hor
        rcases hor with hor | hor
        · exact h3 hor
        · exact h4 hor
      rw [get_host_tag.eq_def, if_pos hs, if_neg hne1, if_neg hne2]
  · intro hs
    have hnl : ¬ env.system = "linux" := by
      rw [hs]
      decide
    refine ⟨?_, ?_, ?_⟩
    · intro hm
      rw [get_host_tag.eq_def, if_neg hnl, if_pos hs, if_pos hm]
    · intro hm
      have hne : ¬(env.machine = "x86_64" ∨ env.machine = "amd64") := by
        rcases hm with hm | hm <;> rw [hm] <;> decide
      rw [get_host_tag.eq_def, if_neg hnl, if_pos hs, if_neg hne, if_pos hm]
    · intro h1 h2 h3 h4
      have hne1 : ¬(env.machine = "x86_64" ∨ env.machine = "amd64") := by
        intro hor
        rcases hor with hor | hor
        · exact h1 hor
        · exact h2 hor
      have hne2 : ¬(env.machine = "arm64" ∨ env.machine = "aarch64") := by
        intro hor
        rcases hor with hor | hor
        · exact h3 hor
        · exact h4 hor
      rw [get_host_tag.eq_def, if_neg hnl, if_pos hs, if_neg hne1, if_neg hne2]
  · intro hs
    have hnl : ¬ env.system = "linux" := by
      rcases hs with h | h | h <;> rw [h] <;> decide
    have hnd : ¬ env.system = "darwin" := by
      rcases hs with h | h | h <;> rw [h] <;> decide
    rw [get_host_tag.eq_def, if_neg hnl, if_neg hnd, if_pos hs]
    cases nd with
    | none => left; rfl
    | some d =>
      by_cases hfb : d ≠ "" ∧
          ¬(fs.existsP (pathJoin (pathJoin d "prebuilt") "windows-x86_64")
            = true)
      · right
        simp only [if_pos hfb]
      · left
        simp only [if_neg hfb]
  · intro h1 h2 h3 h4 h5
    have hnw : ¬(env.system = "windows" ∨ env.system = "win32" ∨
        env.system = "cygwin") := by
      intro hor
      rcases hor with h | h | h
      · exact h3 h
      · exact h4 h
      · exact h5 h
    rw [get_host_tag.eq_def, if_neg h1, if_neg h2, if_neg hnw]

/-- C4 witness: the Linux x86_64 row of the policy table on the concrete
environment. -/
theorem c4_host_tag_policy_table_witness :
    get_host_tag envLinux fsWritable none = some "linux-x86_64" :=
  ((c4_host_tag_policy_table envLinux fsWritable none).1 rfl).1 (Or.inl rfl)

/-- Whatever `get_toolchain_path` returns as a found path is non-empty
(the Python truthiness gates filter the empty string). -/
lemma get_toolchain_path_some_ne_empty {env : Env} {fs : FS}
    {n p : String} {fs1 : FS}
    (hok : get_toolchain_path env fs n = Except.ok (some p, fs1)) :
    p ≠ "" := by
  rw [get_toolchain_path] at hok
  split at hok
  · split at hok
    next => simp at hok
    next htag hht =>
      split at hok
      next hhe =>
        split at hok
        next => simp at hok
        next q fs2 hfind =>
          split at hok
          next hq =>
            have hqp : q = p := by
              injection hok with h2
              injection h2 with h3 h4
              injection h3
            rw [← hqp]
            exact hq
          next hq => simp at hok
        next fs2 hfind => simp at hok
      next hhe => simp at hok
  · simp at hok

/-- C8 counterexample: a successful resolution whose printed path is not
absolute.  With a relative `--ndk` root the program prints the relative
joined path (the code never canonicalizes) and still exits 0. -/
theorem c8_counterexample :
    mainResult envNoCache fsRelative "ndk" =
      (["ndk/toolchains/llvm/prebuilt/linux-x86_64"], 0) ∧
    strStartsWith "ndk/toolchains/llvm/prebuilt/linux-x86_64" "/" = false :=
  ⟨rfl, rfl⟩

/-- C8 (amended): a successful resolution prints exactly the resolved
toolchain directory path (absolute only when the resolved path is; a
relative NDK root yields a relative path) and exits 0; every failing
resolution — including one aborted by an uncaught exception — prints
nothing to stdout and exits 1. -/
theorem c8_stdout_and_exit_code :
    ∀ (env : Env) (fs : FS) (n : String),
      (∀ (p : String) (fs1 : FS),
        get_toolchain_path env fs n = Except.ok (some p, fs1) →
        mainResult env fs n = ([p], 0)) ∧
      ((∀ (p : String) (fs1 : FS),
        get_toolchain_path env fs n ≠ Except.ok (some p, fs1)) →
        mainResult env fs n = ([], 1)) := by
  intro env fs n
  constructor
  · intro p fs1 hok
    have hp : p ≠ "" := get_toolchain_path_some_ne_empty hok
    rw [mainResult, hok]
    simp [hp]
  · intro hno
    cases hres : get_toolchain_path env fs n with
    | error e => rw [mainResult, hres]
    | ok pr =>
      obtain ⟨r, fs1⟩ := pr
      cases r with
      | none => rw [mainResult, hres]
      | some p => exact absurd hres (hno p fs1)

/-- C8 witness: a concrete success prints the path and exits 0; a
concrete failure (invalid NDK root) prints nothing and exits 1. -/
theorem c8_stdout_and_exit_code_witness :
    mainResult envLinux fsWritable "/opt/ndk" =
      (["/opt/ndk/toolchains/llvm/prebuilt/linux-x86_64"], 0) ∧
    mainResult envLinux fsStoreNumber "/opt/ndk" = ([], 1) :=
  ⟨(c8_stdout_and_exit_code envLinux fsWritable "/opt/ndk").1
      "/opt/ndk/toolchains/llvm/prebuilt/linux-x86_64" _ rfl,
   (c8_stdout_and_exit_code envLinux fsStoreNumber "/opt/ndk").2
      (fun p fs1 hcon => by
        have hres : get_toolchain_path envLinux fsStoreNumber "/opt/ndk" =
            Except.ok (none, fsStoreNumber) := rfl
        rw [hres] at hcon
        simp at hcon)⟩

/-- C10: `validate_ndk_directory` succeeds exactly when the root is a
directory and the three required relative paths exist — existence, not
directoriness: a root whose three required paths are all regular files
still validates. -/
theorem c10_validate_checks_existence_not_dirness :
    ∀ (fs : FS) (n : String),
      (validate_ndk_directory fs n = true ↔
        (fs.isDirP n = true ∧
          ∀ p ∈ requiredNdkPaths, fs.existsP (pathJoin n p) = true)) ∧
      (fs.kind n = some FileKind.dir →
        (∀ p ∈ requiredNdkPaths,
          fs.kind (pathJoin n p) = some FileKind.file) →
        validate_ndk_directory fs n = true) := by
  intro fs n
  have hiff : validate_ndk_directory fs n = true ↔
      (fs.isDirP n = true ∧
        ∀ p ∈ requiredNdkPaths, fs.existsP (pathJoin n p) = true) := by
    rw [validate_ndk_directory, Bool.and_eq_true, List.all_eq_true]
  refine ⟨hiff, ?_⟩
  intro hdir hfiles
  rw [hiff]
  constructor
  · rw [FS.isDirP, hdir]
  · intro p hp
    rw [FS.existsP, hfiles p hp]
    rfl

/-- C10 witness: the concrete root whose three required paths are
regular files validates successfully. -/
theorem c10_validate_checks_existence_not_dirness_witness :
    validate_ndk_directory fsNdkFiles "/r" = true :=
  (c10_validate_checks_existence_not_dirness fsNdkFiles "/r").2 rfl
    (by decide)

end ToolchainScript
